import Mathlib

/-!
Verification of the two-party network synchronization subsystem of
src/src/mugen/network.cpp (paintown, Mugen network play): the packet codec
(NetworkBuffer, readPacket, sendPacket), the server and client stage
observers (rollback-and-replay, snapshot scheduling, ping measurement,
send-on-change input exchange) and the client's bounded World decompression.

Machine integers are modelled as Nat/Int with explicit reductions mod 2^16
and 2^32 where the C code narrows.  Components of the repository that are
only declared, not defined, in the provided source (the simulation engine
bridge, the Input/World classes, the LZ4 decompressor) are modelled from the
spec; each such definition says so in its doc comment.
-/

set_option maxRecDepth 8000

namespace Paintown

/-- Narrow an int value to its uint16 bit pattern (the effect of
`Network::dump16` / a cast to `uint16_t`). -/
def u16 (v : Int) : Nat := (v % 65536).toNat

/-- Reinterpret a 16-bit pattern as a signed `int16_t` value. -/
def toInt16 (n : Nat) : Int :=
  if n % 65536 < 32768 then ((n % 65536 : Nat) : Int)
  else ((n % 65536 : Nat) : Int) - 65536

/-- Network-byte-order (big-endian) encoding of a 16-bit value, as
`Network::dump16` writes it. -/
def dump16 (v : Int) : List Nat := [u16 v / 256, u16 v % 256]

/-- Network-byte-order encoding of a 32-bit value (`Network::dump32`). -/
def dump32 (v : Nat) : List Nat :=
  [v / 16777216 % 256, v / 65536 % 256, v / 256 % 256, v % 256]

/-- `Network::parse16`: read a big-endian 16-bit value from two bytes, as the
`int16_t` the callers store it into. -/
def parse16 (b0 b1 : Nat) : Int := toInt16 (b0 % 256 * 256 + b1 % 256)

/-- Input button state; the field set is taken from `sendPacket`'s InputType
serialization (a, b, c, x, y, z, back, forward, up, down). -/
structure Input where
  a : Bool
  b : Bool
  c : Bool
  x : Bool
  y : Bool
  z : Bool
  back : Bool
  forward : Bool
  up : Bool
  down : Bool
deriving DecidableEq

/-- The all-released input state. -/
def inputNone : Input :=
  ⟨false, false, false, false, false, false, false, false, false, false⟩

/-- An input state with the `a` button pressed, used as a concrete test value. -/
def inputA : Input := { inputNone with a := true }

/-- Modelled from the spec: the baseline snapshot `World` (class World of
world.h, outside src/); it carries the stage tick that the observers read as
`getStageData().ticker`. -/
structure World where
  ticker : Nat
deriving DecidableEq

/-- The tagged packet variants of the protocol (`class Packet` and its
subclasses InputPacket, PingPacket, WorldPacket). -/
inductive Packet where
  | input (inputs : Input) (tick : Nat)
  | ping (id : Int)
  | world (w : World)
deriving DecidableEq

/-- `static const int16_t NetworkMagic = 0xd97f` (value as an `int16_t`). -/
def NetworkMagic : Int := toInt16 0xd97f

/-- The NetworkBuffer of network.cpp: a byte sequence, the cursor `length`
(write position on the send side, read position on the receive side) and
`contains`, the number of bytes `readAll` received into the buffer. -/
structure NetworkBuffer where
  data : List Nat
  length : Nat
  contains : Int
deriving DecidableEq

/-- A freshly constructed NetworkBuffer: empty, `length = 0`, `contains = 0`. -/
def emptyBuffer : NetworkBuffer := ⟨[], 0, 0⟩

/-- `NetworkBuffer::operator<<(int16_t)`: append the two bytes of `dump16`
and advance the cursor. -/
def write16 (b : NetworkBuffer) (v : Int) : NetworkBuffer :=
  { b with data := b.data ++ dump16 v, length := b.length + 2 }

/-- `NetworkBuffer::operator<<(uint32_t)`: append the four bytes of `dump32`. -/
def write32 (b : NetworkBuffer) (v : Nat) : NetworkBuffer :=
  { b with data := b.data ++ dump32 v, length := b.length + 4 }

/-- `NetworkBuffer::add`: append raw bytes. -/
def addBytes (b : NetworkBuffer) (bytes : List Nat) : NetworkBuffer :=
  { b with data := b.data ++ bytes, length := b.length + bytes.length }

/-- `NetworkBuffer::operator<<(const string &)`: 16-bit length prefix, then
the raw bytes. -/
def writeString (b : NetworkBuffer) (s : List Nat) : NetworkBuffer :=
  addBytes (write16 b (Int.ofNat s.length)) s

/-- The 16-bit value stored at the read cursor. -/
def get16 (b : NetworkBuffer) : Int :=
  parse16 (b.data.getD b.length 0) (b.data.getD (b.length + 1) 0)

/-- The 32-bit value stored at the read cursor. -/
def get32 (b : NetworkBuffer) : Nat :=
  b.data.getD b.length 0 % 256 * 16777216 + b.data.getD (b.length + 1) 0 % 256 * 65536 +
    b.data.getD (b.length + 2) 0 % 256 * 256 + b.data.getD (b.length + 3) 0 % 256

/-- `NetworkBuffer::operator>>(int16_t &)`: the read succeeds only when
`length + sizeof(data) < contains` (strictly); otherwise the out-parameter is
set to the sentinel `-1` and the cursor does not move. -/
def read16 (b : NetworkBuffer) : Int × NetworkBuffer :=
  if (b.length + 2 : Int) < b.contains then
    (get16 b, { b with length := b.length + 2 })
  else
    (-1, b)

/-- `NetworkBuffer::operator>>(uint32_t &)`: same strict bound; on failure the
`uint32_t` out-parameter receives `-1`, i.e. the bit pattern 4294967295. -/
def read32 (b : NetworkBuffer) : Nat × NetworkBuffer :=
  if (b.length + 4 : Int) < b.contains then
    (get32 b, { b with length := b.length + 4 })
  else
    (4294967295, b)

/-- `NetworkBuffer::readAll` on a frame delivered by the socket: a fresh
buffer holding the received bytes, cursor 0, `contains` = byte count. -/
def mkReceived (bytes : List Nat) : NetworkBuffer :=
  ⟨bytes, 0, (bytes.length : Int)⟩

/-- The bytes `sendPacket` produces for a PingPacket:
magic, type `PingType`, the 16-bit ping id. -/
def sendPingBytes (id : Int) : List Nat :=
  (write16 (write16 (write16 emptyBuffer NetworkMagic) 1) id).data

/-- The bytes `sendPacket` produces for an InputPacket: magic, type
`InputType`, the 32-bit tick, then the length-prefixed compact token text of
the input state (the token serialization lives outside src/, so the payload
bytes are a parameter here; no theorem depends on their content). -/
def sendInputBytes (tick : Nat) (tokenBytes : List Nat) : List Nat :=
  (writeString (write32 (write16 (write16 emptyBuffer NetworkMagic) 0) tick) tokenBytes).data

/-- The bytes `sendPacket` produces for a WorldPacket: magic, type
`WorldType`, 16-bit compressed size, 16-bit uncompressed size, then the
compressed payload (the compressor lives outside src/, so the payload is a
parameter; no theorem depends on its content). -/
def sendWorldBytes (payload : List Nat) (uncompressedSize : Nat) : List Nat :=
  (addBytes
    (write16
      (write16 (write16 (write16 emptyBuffer NetworkMagic) 2) (Int.ofNat payload.length))
      (Int.ofNat uncompressedSize))
    payload).data

/-- The type switch of `readPacket` (network.cpp lines 269-303), applied to
the buffer as it stands after magic and type were read.  The InputType and
WorldType branches are FIXME stubs that fall through to `return NULL`.
PingType reads the 16-bit id and builds `PingPacket((uint16_t) clientPing)`
(stored in an `int16_t` field again).  An unknown type throws a
MugenException, modelled as `Except.error` with the same message text. -/
def readPacketSwitch (t : Int) (b : NetworkBuffer) : Except String (Option Packet) :=
  if t = 0 then .ok none
  else if t = 1 then .ok (some (Packet.ping (toInt16 (u16 (read16 b).1))))
  else if t = 2 then .ok none
  else .error ("Unknown packet type: " ++ toString t)

/-- `readPacket(NetworkBuffer &)` (network.cpp lines 261-305): read the
16-bit magic — a mismatch yields no packet, never an error — then the 16-bit
type, and dispatch on it. -/
def readPacket (b : NetworkBuffer) : Except String (Option Packet) :=
  if (read16 b).1 ≠ NetworkMagic then .ok none
  else readPacketSwitch (read16 (read16 b).2).1 (read16 (read16 b).2).2

/-- The type dispatch of the client's reliable receive loop
(`NetworkClientObserver::doReceive`, lines 669-706): the switch handles only
`WorldType` and `PingType`; any other type (including `InputType`) falls
through, the frame is skipped and the loop continues — no exception, no
teardown. -/
inductive ClientAction where
  | world
  | ping
  | ignore
deriving DecidableEq

/-- The switch of `NetworkClientObserver::doReceive` on the decoded type. -/
def clientDispatch (t : Int) : ClientAction :=
  if t = 2 then ClientAction.world
  else if t = 1 then ClientAction.ping
  else ClientAction.ignore

/-! ### Simulation bridge (stage) model -/

/-- Observable simulation events during a step, used to state what the
observers do to the stage. -/
inductive StageEvent where
  | restored (ticker : Nat)
  | soundsOff
  | soundsOn
  | steppedAt (tick : Nat)
deriving DecidableEq

/-- Modelled from the spec: the externally-owned simulation engine seen
through the Simulation Bridge (current-tick query, single-tick advance,
snapshot, restore, side-effect mute); the Stage class itself is outside
src/.  `ticks` is the engine's current tick; `events` records the visible
actions applied to the stage. -/
structure StageState where
  ticks : Nat
  events : List StageEvent
deriving DecidableEq

/-- Modelled from the spec: `stage.logic()`, the single-tick advance; the
tick increases by one and the step at the pre-step tick is recorded. -/
def stageLogic (st : StageState) : StageState :=
  { ticks := st.ticks + 1, events := st.events ++ [StageEvent.steppedAt st.ticks] }

/-- Modelled from the spec: `stage.updateState(world)`, the tree→state
restore — a hard snap to the baseline, including its tick. -/
def updateState (st : StageState) (w : World) : StageState :=
  { ticks := w.ticker, events := st.events ++ [StageEvent.restored w.ticker] }

/-- Modelled from the spec: `stage.snapshotState()` captures the current
state; in this model a `World` carrying the current tick. -/
def snapshotState (st : StageState) : World := ⟨st.ticks⟩

/-- Modelled from the spec: `Mugen::Sound::disableSounds()`, the side-effect
mute used during forced replay. -/
def soundsOff (st : StageState) : StageState :=
  { st with events := st.events ++ [StageEvent.soundsOff] }

/-- Modelled from the spec: `Mugen::Sound::enableSounds()`. -/
def soundsOn (st : StageState) : StageState :=
  { st with events := st.events ++ [StageEvent.soundsOn] }

/-- `n` consecutive calls of `stage.logic()`. -/
def iterLogic : Nat → StageState → StageState
  | 0, st => st
  | n + 1, st => iterLogic n (stageLogic st)

/-- The rollback-and-replay block shared verbatim by
`NetworkServerObserver::beforeLogic` (lines 578-585) and
`NetworkClientObserver::beforeLogic` (lines 784-791):
`stage.updateState(*lastState); disableSounds();` then
`currentTicks - lastState->getStageData().ticker` calls of `stage.logic()`;
`enableSounds()`. -/
def replay (st : StageState) (w : World) (currentTicks : Nat) : StageState :=
  soundsOn (iterLogic (currentTicks - w.ticker) (soundsOff (updateState st w)))

/-! ### Server observer -/

/-- Insert into a `std::map` modelled as an association list: the new binding
replaces any existing binding of the same key. -/
def mapInsert (k : Int) (v : Nat) (l : List (Int × Nat)) : List (Int × Nat) :=
  (k, v) :: l.filter (fun q => q.1 != k)

/-- `std::map::erase(key)`. -/
def eraseKey (k : Int) (l : List (Int × Nat)) : List (Int × Nat) :=
  l.filter (fun q => q.1 != k)

/-- `inputs[tick] = input` on the pending-inputs table (tick → input). -/
def tickInsert (tick : Nat) (i : Input) (l : List (Nat × Input)) : List (Nat × Input) :=
  (tick, i) :: l.filter (fun q => q.1 != tick)

/-- `std::map::find` on the outstanding-pings table. -/
def mapLookup (k : Int) : List (Int × Nat) → Option Nat
  | [] => none
  | q :: rest => if q.1 = k then some q.2 else mapLookup k rest

/-- The mutable state of `NetworkServerObserver`: outbound packet queue,
pending-inputs table (tick → input), held baseline (`lastState`), the last
input value sent (`lastInput`), outstanding-pings table (id → send time in
milliseconds), the snapshot counter `count`, the time of the last ping
(`lastPing`) and the 16-bit ping id counter (`ping`). -/
structure ServerState where
  outBox : List Packet
  inputs : List (Nat × Input)
  lastState : Option World
  lastInput : Input
  pings : List (Int × Nat)
  count : Nat
  lastPing : Nat
  ping : Nat
deriving DecidableEq

/-- The server state right after construction (empty queues and tables,
`count = 0`, `lastPing` = construction time, ping counter 0). -/
def serverInit (now : Nat) : ServerState :=
  ⟨[], [], none, inputNone, [], 0, now, 0⟩

/-- `NetworkServerObserver::beforeLogic` (lines 561-594), with the current
wall-clock time `now` as a parameter.  Every 30th call enqueues a World
snapshot.  `getInputs()` drains the pending-inputs table into `useInputs`;
the guard that decides whether to rollback then tests `inputs.size() > 0`
on the member that `getInputs()` just cleared (the drained copy itself is
only traversed by a loop whose body is commented out).  Finally, once `now`
is more than 1000 ms past `lastPing`, a fresh ping id is recorded and a
PingPacket enqueued. -/
def serverBeforeLogic (s : ServerState) (stage : StageState) (now : Nat) :
    ServerState × StageState :=
  let s1 := if s.count % 30 == 0 then
      { s with outBox := s.outBox ++ [Packet.world (snapshotState stage)] }
    else s
  let s2 := { s1 with count := s1.count + 1 }
  let currentTicks := stage.ticks
  let _useInputs := s2.inputs
  let s3 := { s2 with inputs := [] }
  let stage1 :=
    if s3.inputs.length > 0 then
      match s3.lastState with
      | some w => if currentTicks > w.ticker then replay stage w currentTicks else stage
      | none => stage
    else stage
  if now - s3.lastPing > 1000 then
    ({ s3 with lastPing := now
             , ping := (s3.ping + 1) % 65536
             , pings := mapInsert (Int.ofNat s3.ping) now s3.pings
             , outBox := s3.outBox ++ [Packet.ping (Int.ofNat s3.ping)] }, stage1)
  else (s3, stage1)

/-- `NetworkServerObserver::afterLogic` (lines 596-608): compare the current
local input to `lastInput`; when different, remember it and enqueue an
InputPacket carrying the full state and the current tick. -/
def afterLogicStep (last latest : Input) (tick : Nat) : Input × Option Packet :=
  if latest ≠ last then (latest, some (Packet.input latest tick))
  else (last, none)

/-- Run `afterLogic` over a sequence of local input states (one per step,
steps numbered from `k`); returns the step numbers at which an InputPacket
was enqueued. -/
def sendTicks (last : Input) (seq : List Input) (k : Nat) : List Nat :=
  match seq with
  | [] => []
  | i :: rest =>
    match afterLogicStep last i k with
    | (last2, some _) => k :: sendTicks last2 rest (k + 1)
    | (last2, none) => sendTicks last2 rest (k + 1)

/-- `NetworkServerObserver::handlePacket` (lines 503-524): a Ping echo is
looked up in the outstanding-pings table; when present the round-trip time
`now - sendTime` is reported (second component) and the entry erased; when
absent nothing happens.  An Input packet is stored by tick; a World packet
from the client is logged and discarded. -/
def serverHandlePacket (s : ServerState) (now : Nat) (p : Packet) :
    ServerState × Option Nat :=
  match p with
  | Packet.ping id =>
    match mapLookup id s.pings with
    | some sent => ({ s with pings := eraseKey id s.pings }, some (now - sent))
    | none => (s, none)
  | Packet.input i tick => ({ s with inputs := tickInsert tick i s.inputs }, none)
  | Packet.world _ => (s, none)

/-- `beforeLogic` followed by the engine's own `stage.logic()` for one frame,
with no wall-clock time passing (`now = 0`) and no remote packets arriving. -/
def serverTick (p : ServerState × StageState) : ServerState × StageState :=
  let q := serverBeforeLogic p.1 p.2 0
  (q.1, stageLogic q.2)

/-- `n` frames of the server with no remote traffic. -/
def runServerTicks : Nat → ServerState × StageState → ServerState × StageState
  | 0, p => p
  | n + 1, p => runServerTicks n (serverTick p)

/-! ### Client observer -/

/-- The mutable state of `NetworkClientObserver`: the single baseline
snapshot slot `world`, the last applied baseline `lastState`, the
pending-inputs table and the liveness flag. -/
structure ClientState where
  world : Option World
  lastState : Option World
  inputs : List (Nat × Input)
  alive : Bool
deriving DecidableEq

/-- `NetworkClientObserver::setWorld` (lines 638-641): unconditionally
overwrite the slot (latest wins). -/
def setWorld (s : ClientState) (w : World) : ClientState :=
  { s with world := some w }

/-- `NetworkClientObserver::getWorld` (lines 643-648): take the held
snapshot and reset the slot to empty, under the lock. -/
def getWorld (s : ClientState) : Option World × ClientState :=
  (s.world, { s with world := none })

/-- `NetworkClientObserver::beforeLogic` (lines 764-793): consume the
baseline slot; if it held a snapshot, hard-snap the stage to it and remember
it as `lastState`.  Then, if buffered remote inputs exist, clear them and —
when the active baseline trails the current tick — run the
rollback-and-replay block. -/
def clientBeforeLogic (s : ClientState) (stage : StageState) :
    ClientState × StageState :=
  let currentTicks := stage.ticks
  let p := getWorld s
  let s2 := match p.1 with
    | some w => { p.2 with lastState := some w }
    | none => p.2
  let stage1 := match p.1 with
    | some w => updateState stage w
    | none => stage
  if s2.inputs.length > 0 then
    let s3 := { s2 with inputs := [] }
    match s2.lastState with
    | some w =>
      if currentTicks > w.ticker then (s3, replay stage1 w currentTicks)
      else (s3, stage1)
    | none => (s3, stage1)
  else (s2, stage1)

/-! ### Bounded decompression (client World receive) -/

/-- One byte of an LZ4 back-reference copy: the byte `off` positions before
the end of the output produced so far. -/
def lz4MatchByte (out : List Nat) (off : Nat) : Nat :=
  out.getD (out.length - off) 0

/-- Byte-by-byte overlapping match copy of the LZ4 block format. -/
def lz4CopyMatch : Nat → Nat → List Nat → List Nat
  | 0, _, out => out
  | n + 1, off, out => lz4CopyMatch n off (out ++ [lz4MatchByte out off])

/-- Modelled from the spec: the decode loop of `LZ4_uncompress` (util/lz4,
outside src/).  The spec's framing contract is that decompression is
size-bounded: it never writes past the declared uncompressed size no matter
what the compressed bytes claim.  Sequences are token, literal run, 2-byte
little-endian offset, match copy; every append is clamped to `maxOut`. -/
def lz4Loop : Nat → List Nat → List Nat → Nat → List Nat
  | 0, _, out, _ => out
  | _ + 1, [], out, _ => out
  | fuel + 1, tok :: rest, out, maxOut =>
    let litLen := tok / 16
    let out1 := (out ++ rest.take litLen).take maxOut
    let rest1 := rest.drop litLen
    match rest1 with
    | o1 :: o2 :: rest2 =>
      let off := o1 + 256 * o2
      let matchLen := tok % 16 + 4
      let out2 := (lz4CopyMatch matchLen off out1).take maxOut
      lz4Loop fuel rest2 out2 maxOut
    | _ => out1

/-- Modelled from the spec: `LZ4_uncompress(data, what, uncompressed)` —
decompress `input`, writing at most `maxOut` bytes of output. -/
def lz4Uncompress (input : List Nat) (maxOut : Nat) : List Nat :=
  lz4Loop (input.length + 1) input [] maxOut

/-- The WorldType branch of `NetworkClientObserver::doReceive` (lines
681-697): allocate `uncompressed + 1` bytes, write the terminating zero at
index `uncompressed`, then decompress the payload into the front of the
buffer.  The model shows the buffer after both writes (unwritten allocation
bytes shown as 0). -/
def receiveWorldBuffer (payload : List Nat) (uncompressed : Nat) : List Nat :=
  let what := List.replicate (uncompressed + 1) 0
  let dec := lz4Uncompress payload uncompressed
  dec ++ what.drop dec.length

/-! ### Helper lemmas -/

/-- A 16-bit buffer read with strictly more than two unread bytes yields the
stored value and advances the cursor. -/
theorem read16_success (b : NetworkBuffer) (h : (b.length + 2 : Int) < b.contains) :
    read16 b = (get16 b, { b with length := b.length + 2 }) := by
  simp [read16, h]

/-- A 16-bit buffer read without strict surplus yields the sentinel and
leaves the buffer unchanged. -/
theorem read16_fail (b : NetworkBuffer) (h : ¬ (b.length + 2 : Int) < b.contains) :
    read16 b = (-1, b) := by
  simp [read16, h]

/-- A 32-bit read with strict surplus succeeds. -/
theorem read32_success (b : NetworkBuffer) (h : (b.length + 4 : Int) < b.contains) :
    read32 b = (get32 b, { b with length := b.length + 4 }) := by
  simp [read32, h]

/-- A 32-bit read without strict surplus yields the wrapped sentinel. -/
theorem read32_fail (b : NetworkBuffer) (h : ¬ (b.length + 4 : Int) < b.contains) :
    read32 b = (4294967295, b) := by
  simp [read32, h]

/-- After erasing a key, looking it up finds nothing. -/
theorem lookup_eraseKey (l : List (Int × Nat)) (k : Int) :
    mapLookup k (eraseKey k l) = none := by
  induction l with
  | nil => rfl
  | cons q rest ih =>
    obtain ⟨a, v⟩ := q
    by_cases h : a = k
    · simpa [eraseKey, List.filter_cons, h] using ih
    · simpa [eraseKey, List.filter_cons, h, mapLookup] using ih

/-- Closed form of `n` consecutive `stage.logic()` calls: the tick advances
by `n` and the executed ticks are recorded in order. -/
theorem iterLogic_spec (n : Nat) : ∀ st : StageState,
    iterLogic n st =
      ⟨st.ticks + n, st.events ++ (List.range' st.ticks n).map StageEvent.steppedAt⟩ := by
  induction n with
  | zero => intro st; cases st; simp [iterLogic]
  | succ n ih =>
    intro st
    rw [iterLogic, ih]
    simp [stageLogic, List.range'_succ]
    omega

/-- Bound for the decompression loop: output already within the bound stays
within it, whatever the remaining input holds. -/
theorem lz4Loop_length_le (fuel : Nat) : ∀ (input out : List Nat) (maxOut : Nat),
    out.length ≤ maxOut → (lz4Loop fuel input out maxOut).length ≤ maxOut := by
  induction fuel with
  | zero => intro input out m h; exact h
  | succ fuel ih =>
    intro input out m h
    cases input with
    | nil => exact h
    | cons tok rest =>
      rw [lz4Loop]
      split
      · exact ih _ _ _ (by simp [List.length_take])
      · simp [List.length_take]

/-- The decompressor never produces more than `maxOut` bytes, for every
input. -/
theorem lz4Uncompress_length_le (input : List Nat) (maxOut : Nat) :
    (lz4Uncompress input maxOut).length ≤ maxOut :=
  lz4Loop_length_le _ _ _ _ (by simp)

/-- `runServerTicks` peels frames from the right as well. -/
theorem runServerTicks_succ_right (n : Nat) : ∀ p,
    runServerTicks (n + 1) p = serverTick (runServerTicks n p) := by
  induction n with
  | zero => intro p; rfl
  | succ n ih =>
    intro p
    rw [runServerTicks, ih]
    rfl

/-- Closed form of a server run with no remote traffic and no wall time
passing: after `n` frames, `count = n`, the stage is at tick `n`, and the
outbox holds exactly the snapshots taken at the frames whose count was a
multiple of 30. -/
theorem runServerTicks_closed (n : Nat) :
    runServerTicks n (serverInit 0, ⟨0, []⟩) =
      (⟨((List.range n).filter (fun k => k % 30 == 0)).map (fun k => Packet.world ⟨k⟩),
        [], none, inputNone, [], n, 0, 0⟩,
       ⟨n, (List.range n).map StageEvent.steppedAt⟩) := by
  induction n with
  | zero => rfl
  | succ n ih =>
    rw [runServerTicks_succ_right, ih]
    by_cases h : n % 30 = 0
    · simp [serverTick, serverBeforeLogic, stageLogic, snapshotState, List.range_succ, h]
    · simp [serverTick, serverBeforeLogic, stageLogic, snapshotState, List.range_succ, h]

/-- A client state with an empty baseline slot and no buffered inputs is a
fixed point of the before-step hook. -/
theorem clientBeforeLogic_fixed (s : ClientState) (stage : StageState)
    (hw : s.world = none) (hi : s.inputs = []) :
    clientBeforeLogic s stage = (s, stage) := by
  obtain ⟨w, ls, ins, al⟩ := s
  cases hw
  cases hi
  simp [clientBeforeLogic, getWorld]

/-- Every before-step hook leaves the baseline slot empty and the
pending-inputs table drained. -/
theorem clientBeforeLogic_clears (s : ClientState) (stage : StageState) :
    ((clientBeforeLogic s stage).1).world = none ∧
    ((clientBeforeLogic s stage).1).inputs = [] := by
  obtain ⟨w, ls, ins, al⟩ := s
  cases w <;> cases ins <;> cases ls <;>
    simp [clientBeforeLogic, getWorld] <;> split <;> simp

/-! ### The claims -/

/-- C1 (code bug): decode does not reproduce encode for any packet type.
`readPacket` applied to the received bytes of `sendPacket` yields no packet
for Input and World frames (both decode branches are FIXME stubs), and for a
Ping frame it yields a PingPacket whose id is the sentinel `-1`, not the id
that was sent: the id is the final field of the exactly-sized frame and
`operator>>` demands strictly more bytes than the field size. -/
theorem readPacket_sendPacket_roundtrip_fails :
    readPacket (mkReceived (sendInputBytes 5 [1, 2, 3])) = .ok none ∧
    readPacket (mkReceived (sendWorldBytes [9, 9] 4)) = .ok none ∧
    readPacket (mkReceived (sendPingBytes 7)) = .ok (some (Packet.ping (-1))) ∧
    Packet.ping (-1) ≠ Packet.ping 7 :=
  ⟨rfl, rfl, rfl, by decide⟩

/-- C2: for a received World frame declaring uncompressed size S, the client
allocates a buffer of exactly S+1 bytes, the terminating zero is written at
index S, and decompression writes at most S payload bytes — hence at most
S+1 bytes land in the buffer, terminator included — for every compressed
payload, malformed or adversarial ones included. -/
theorem world_decompression_bounded (payload : List Nat) (S : Nat) :
    (lz4Uncompress payload S).length ≤ S ∧
    (receiveWorldBuffer payload S).length = S + 1 ∧
    (receiveWorldBuffer payload S).getD S 1 = 0 := by
  have hle := lz4Uncompress_length_le payload S
  refine ⟨hle, ?_, ?_⟩
  · simp [receiveWorldBuffer]
    omega
  · rw [receiveWorldBuffer]
    rw [List.getD_append_right _ _ _ _ hle]
    rw [List.drop_replicate]
    rw [List.getD_eq_getElem _ _ (by simp; omega)]
    exact List.getElem_replicate ..

/-- C3 (code bug): with a pending remote input (tick 1), a held baseline at
tick 0 and the engine at tick 2 — exactly the rollback antecedent — the
server's before-step hook drains the input table but leaves the stage
untouched: no baseline restore, no replay.  `getInputs()` clears the member
`inputs` and the rollback guard then tests `inputs.size() > 0` on that
just-cleared member, so the branch is unreachable. -/
theorem server_rollback_never_runs :
    (⟨[], [(1, inputA)], some ⟨0⟩, inputNone, [], 1, 0, 0⟩ : ServerState).inputs ≠ [] ∧
    serverBeforeLogic ⟨[], [(1, inputA)], some ⟨0⟩, inputNone, [], 1, 0, 0⟩ ⟨2, []⟩ 0 =
      (⟨[], [], some ⟨0⟩, inputNone, [], 2, 0, 0⟩, ⟨2, []⟩) := by decide

/-- C4: whenever the rollback-and-replay block runs with baseline tick B and
current tick C, B < C, it restores the baseline, disables sounds, invokes
the single-tick step function exactly C − B times — once for each tick of
[B, C), in order, no skips, no duplicates — and re-enables sounds after the
last replayed step. -/
theorem replay_covers_exact_range (B : Nat) (st : StageState) (h : B < st.ticks) :
    replay st ⟨B⟩ st.ticks =
      ⟨st.ticks,
       st.events ++ [StageEvent.restored B, StageEvent.soundsOff] ++
         (List.range' B (st.ticks - B)).map StageEvent.steppedAt ++
         [StageEvent.soundsOn]⟩ ∧
    (List.range' B (st.ticks - B)).length = st.ticks - B ∧
    (List.range' B (st.ticks - B)).Nodup ∧
    (∀ t, t ∈ List.range' B (st.ticks - B) ↔ B ≤ t ∧ t < st.ticks) := by
  refine ⟨?_, by simp, List.nodup_range' _ _, fun t => ?_⟩
  · unfold replay
    rw [iterLogic_spec]
    simp [updateState, soundsOff, soundsOn]
    omega
  · rw [List.mem_range'_1]
    omega

/-- Witness for C4 at B = 2, C = 5. -/
theorem replay_covers_exact_range_witness :
    2 < 5 ∧
    replay ⟨5, []⟩ ⟨2⟩ 5 =
      ⟨5, [StageEvent.restored 2, StageEvent.soundsOff, StageEvent.steppedAt 2,
           StageEvent.steppedAt 3, StageEvent.steppedAt 4, StageEvent.soundsOn]⟩ :=
  ⟨by decide, ((replay_covers_exact_range 2 ⟨5, []⟩ (by decide)).1).trans (by decide)⟩

/-- C5 counterexample: a buffer opening with the protocol magic and carrying
the unknown type code 3 makes `readPacket` raise a MugenException (modelled
as `Except.error` with the exception's message) instead of logging and
returning no packet. -/
theorem readPacket_unknown_type_throws :
    readPacket (mkReceived [0xd9, 0x7f, 0, 3, 0, 0]) =
      Except.error "Unknown packet type: 3" := rfl

/-- C5 amended: after a valid magic, a type that is none of the three known
codes makes `readPacket` throw a MugenException naming the type — the decode
path does raise; it is only the client's reliable receive loop that treats
an unrecognized type non-fatally, falling through its switch so the frame is
skipped and the connection stays up. -/
theorem unknown_type_raises (t0 t1 : Nat) (rest : List Nat)
    (h0 : parse16 t0 t1 ≠ 0) (h1 : parse16 t0 t1 ≠ 1) (h2 : parse16 t0 t1 ≠ 2)
    (hr : rest ≠ []) :
    readPacket (mkReceived (217 :: 127 :: t0 :: t1 :: rest)) =
      Except.error ("Unknown packet type: " ++ toString (parse16 t0 t1)) ∧
    clientDispatch (parse16 t0 t1) = ClientAction.ignore := by
  have hlen : (0 : Nat) < rest.length := List.length_pos.mpr hr
  have hmk : mkReceived (217 :: 127 :: t0 :: t1 :: rest) =
      ⟨217 :: 127 :: t0 :: t1 :: rest, 0, ((rest.length + 4 : Nat) : Int)⟩ := by
    simp [mkReceived]
    omega
  have e1 : read16 ⟨217 :: 127 :: t0 :: t1 :: rest, 0, ((rest.length + 4 : Nat) : Int)⟩ =
      (NetworkMagic, ⟨217 :: 127 :: t0 :: t1 :: rest, 2, ((rest.length + 4 : Nat) : Int)⟩) := by
    rw [read16_success _ (by simp; omega)]
    simp [get16]
    decide
  have e2 : read16 ⟨217 :: 127 :: t0 :: t1 :: rest, 2, ((rest.length + 4 : Nat) : Int)⟩ =
      (parse16 t0 t1, ⟨217 :: 127 :: t0 :: t1 :: rest, 4, ((rest.length + 4 : Nat) : Int)⟩) := by
    rw [read16_success _ (by simp; omega)]
    simp [get16]
  constructor
  · rw [readPacket, hmk, e1]
    dsimp only
    rw [if_neg (by simp), e2]
    dsimp only
    simp [readPacketSwitch, h0, h1, h2]
  · simp [clientDispatch, h1, h2]

/-- Witness for C5's amended claim at type code 3. -/
theorem unknown_type_raises_witness :
    (parse16 0 3 ≠ 0 ∧ parse16 0 3 ≠ 1 ∧ parse16 0 3 ≠ 2 ∧ ([0] : List Nat) ≠ []) ∧
    readPacket (mkReceived [217, 127, 0, 3, 0]) =
      Except.error "Unknown packet type: 3" ∧
    clientDispatch (parse16 0 3) = ClientAction.ignore := by
  have h := unknown_type_raises 0 3 [0] (by decide) (by decide) (by decide) (by decide)
  exact ⟨by decide, h.1.trans (by rfl), h.2⟩

/-- C6 counterexample: the five-step local input sequence I0=I1=I2≠I3=I4
with I0 = `inputA`, run when the last value sent was already `inputA`,
enqueues exactly one Input packet (at the step of I3), not two. -/
theorem send_on_change_two_packets_fails :
    sendTicks inputA [inputA, inputA, inputA, inputNone, inputNone] 0 = [3] ∧
    ([3] : List Nat) ≠ [0, 3] := by decide

/-- C6 amended: the server's after-step hook enqueues an Input packet
(carrying the full current state and the current tick) iff the current local
input differs from the last value sent; the sequence I0=I1=I2≠I3=I4 yields
exactly two packets, at the steps of I0 and I3, provided I0 also differs
from the value last sent before the window (initially the
default-constructed input). -/
theorem send_on_change_amended (last i0 i3 : Input) (t : Nat)
    (h03 : i0 ≠ i3) (h0 : i0 ≠ last) :
    (∀ l i : Input, (afterLogicStep l i t).2 ≠ none ↔ i ≠ l) ∧
    sendTicks last [i0, i0, i0, i3, i3] 0 = [0, 3] := by
  constructor
  · intro l i
    by_cases h : i = l
    · simp [afterLogicStep, h]
    · simp [afterLogicStep, h]
  · have h30 : i3 ≠ i0 := Ne.symm h03
    simp [sendTicks, afterLogicStep, h0, h30]

/-- Witness for C6's amended claim. -/
theorem send_on_change_amended_witness :
    (inputA ≠ inputNone ∧ inputA ≠ inputNone) ∧
    sendTicks inputNone [inputA, inputA, inputA, inputNone, inputNone] 0 = [0, 3] :=
  ⟨⟨by decide, by decide⟩,
   (send_on_change_amended inputNone inputA inputNone 0 (by decide) (by decide)).2⟩

/-- C7: the server enqueues a World snapshot on every 30th before-step hook
(`count % 30 == 0`); in a run with no remote input and the hook at tick k
for each k, the outbox after the hook at tick 30 — the server having ticked
30 times since the hook at tick 0 — holds exactly one World packet
snapshotted at tick 0 and one at tick 30, and no others. -/
theorem world_snapshot_every_30 (n : Nat) :
    (runServerTicks n (serverInit 0, ⟨0, []⟩)).1.outBox =
      ((List.range n).filter (fun k => k % 30 == 0)).map (fun k => Packet.world ⟨k⟩) ∧
    (runServerTicks 31 (serverInit 0, ⟨0, []⟩)).1.outBox =
      [Packet.world ⟨0⟩, Packet.world ⟨30⟩] := by
  constructor
  · rw [runServerTicks_closed]
  · rw [runServerTicks_closed]
    decide

/-- C8: a Ping echo whose id is in the outstanding-pings table yields a
reported round-trip time of now − sendTime (Δ for a ping sent at T and
echoed at T+Δ) and removes exactly that entry, leaving all other state
unchanged; a second echo carrying the same id finds no entry and is ignored,
the table and all other state unchanged. -/
theorem ping_rtt_and_duplicate_ignored (s : ServerState) (id : Int) (T d now2 : Nat)
    (h : mapLookup id s.pings = some T) :
    serverHandlePacket s (T + d) (Packet.ping id) =
      ({ s with pings := eraseKey id s.pings }, some d) ∧
    serverHandlePacket { s with pings := eraseKey id s.pings } now2 (Packet.ping id) =
      ({ s with pings := eraseKey id s.pings }, none) := by
  have he := lookup_eraseKey s.pings id
  constructor
  · simp [serverHandlePacket, h]
  · simp [serverHandlePacket, he]

/-- Witness for C8: ping id 7 sent at T = 100, echoed at T+Δ = 150. -/
theorem ping_rtt_and_duplicate_ignored_witness :
    mapLookup 7 (⟨[], [], none, inputNone, [(7, 100)], 0, 0, 0⟩ : ServerState).pings = some 100 ∧
    serverHandlePacket ⟨[], [], none, inputNone, [(7, 100)], 0, 0, 0⟩ 150 (Packet.ping 7) =
      (⟨[], [], none, inputNone, [], 0, 0, 0⟩, some 50) ∧
    serverHandlePacket ⟨[], [], none, inputNone, [], 0, 0, 0⟩ 200 (Packet.ping 7) =
      (⟨[], [], none, inputNone, [], 0, 0, 0⟩, none) := by
  have h := ping_rtt_and_duplicate_ignored ⟨[], [], none, inputNone, [(7, 100)], 0, 0, 0⟩
    7 100 50 200 (by decide)
  exact ⟨by decide, h.1.trans (by decide), h.2.trans (by decide)⟩

/-- C9: a 16-bit or 32-bit NetworkBuffer read succeeds — returning the
stored value and advancing the cursor — only when strictly more bytes than
the value's size remain (`length + sizeof(data) < contains`); with exactly
sizeof bytes left it returns the sentinel -1 (bit pattern 4294967295 for the
uint32 read) and does not advance, so the final field of a frame received
with no trailing bytes can never be decoded. -/
theorem buffer_read_needs_strict_surplus (b : NetworkBuffer) :
    ((b.length + 2 : Int) < b.contains →
      read16 b = (get16 b, { b with length := b.length + 2 })) ∧
    ((b.length + 2 : Int) = b.contains → read16 b = (-1, b)) ∧
    ((b.length + 4 : Int) < b.contains →
      read32 b = (get32 b, { b with length := b.length + 4 })) ∧
    ((b.length + 4 : Int) = b.contains → read32 b = (4294967295, b)) :=
  ⟨fun h => read16_success b h,
   fun h => read16_fail b (by omega),
   fun h => read32_success b h,
   fun h => read32_fail b (by omega)⟩

/-- Witness for C9: a successful mid-buffer read and a failing read of the
final two bytes. -/
theorem buffer_read_needs_strict_surplus_witness :
    (((0 : Nat) + 2 : Int) < 5 ∧
      read16 ⟨[0, 7, 1, 1, 1], 0, 5⟩ = (7, ⟨[0, 7, 1, 1, 1], 2, 5⟩)) ∧
    (((0 : Nat) + 2 : Int) = 2 ∧ read16 ⟨[0, 7], 0, 2⟩ = (-1, ⟨[0, 7], 0, 2⟩)) :=
  ⟨⟨by decide,
    ((buffer_read_needs_strict_surplus ⟨[0, 7, 1, 1, 1], 0, 5⟩).1 (by decide)).trans
      (by decide)⟩,
   ⟨by decide, (buffer_read_needs_strict_surplus ⟨[0, 7], 0, 2⟩).2.1 (by decide)⟩⟩

/-- C10: the client's baseline slot is consume-once: `getWorld` returns the
held snapshot and empties the slot atomically, the before-step hook leaves
the slot empty, and — absent a new `setWorld` — a second before-step hook
changes nothing, so each received snapshot is applied as a baseline at most
once. -/
theorem world_slot_consume_once (s : ClientState) (stage : StageState) :
    (getWorld s).1 = s.world ∧
    ((getWorld s).2).world = none ∧
    ((clientBeforeLogic s stage).1).world = none ∧
    clientBeforeLogic (clientBeforeLogic s stage).1 (clientBeforeLogic s stage).2 =
      ((clientBeforeLogic s stage).1, (clientBeforeLogic s stage).2) := by
  have hc := clientBeforeLogic_clears s stage
  exact ⟨rfl, rfl, hc.1, clientBeforeLogic_fixed _ _ hc.1 hc.2⟩

end Paintown
